import Mathlib

/-!
Shallow embedding of the httpie-style CLI HTTP client in
`src/day1/httpie/src/main.rs`.

Rust strings are modelled as `List Char` (`Str`), so that every operation is
structural and decidable. Fallible Rust code (`Result`, and `unwrap` panics)
is modelled with `Except Str`: `.error` carries the error / panic message.
External capabilities (the `url` crate's URL parser, the `mime` crate's MIME
parser, `serde_json` serialization, `jsonxf` pretty-printing, terminal
colouring) live outside this repository; they are either modelled from the
spec's interface description (marked `Modelled from the spec:`) or passed as
explicit function arguments. Terminal colouring is abstracted away (identity
on text): no claim is about colours.
-/

deriving instance DecidableEq for Except

namespace Httpie

/-- Rust `String` / `&str`, modelled as its list of characters. -/
abbrev Str := List Char

/-- Characters of a string literal, for concrete inputs. -/
def str (s : String) : Str := s.data

/-! ## KvPair parser (`KvPair`, `KvPair::from_str`, `parse_kv_pair`) -/

/-- The `KvPair` struct of `main.rs`: a parsed `key=value` CLI token. -/
structure KvPair where
  k : Str
  v : Str
deriving DecidableEq, Repr

/-- Rust `str::split(sep)` on a single-character separator: yields the list of
fragments between occurrences of `sep`, keeping empty fragments, and yields
`[""]` on the empty string (Rust's `"".split('=')` iterates once, over `""`). -/
def splitChar (sep : Char) : Str → List Str
  | [] => [[]]
  | c :: cs =>
    if c = sep then
      [] :: splitChar sep cs
    else
      match splitChar sep cs with
      | f :: rest => (c :: f) :: rest
      | [] => [[c]]

/-- `KvPair::from_str`: split the token on `'='`, take the first fragment as
the key and the second as the value; if the iterator yields fewer than two
fragments, fail with the `anyhow!("Failed to parse{}", s)` error. -/
def KvPair.from_str (s : Str) : Except Str KvPair :=
  let split := splitChar '=' s
  match split[0]?, split[1]? with
  | some k, some v => .ok ⟨k, v⟩
  | _, _ => .error (str "Failed to parse" ++ s)

/-- `parse_kv_pair`: thin wrapper over `KvPair::from_str`. -/
def parse_kv_pair (s : Str) : Except Str KvPair := KvPair.from_str s

example : parse_kv_pair (str "a=1") = .ok ⟨str "a", str "1"⟩ := by decide
example : parse_kv_pair (str "b=") = .ok ⟨str "b", str ""⟩ := by decide
example : (parse_kv_pair (str "a")).isOk = false := by decide
example : parse_kv_pair (str "a=b=c") = .ok ⟨str "a", str "b"⟩ := by decide
example : parse_kv_pair (str "=x") = .ok ⟨str "", str "x"⟩ := by decide

/-! ## URL validator (`parse_url`) -/

/-- Characters allowed in a URL scheme after the leading letter. -/
def isSchemeChar (c : Char) : Bool :=
  c.isAlphanum || c == '+' || c == '-' || c == '.'

/-- Modelled from the spec: the external URL-parsing capability
(`reqwest::Url`, i.e. the `url` crate) used by `parse_url`, which is not part
of this repository. Per the spec, it accepts exactly the strings parseable as
an absolute URL with a scheme and a host: a nonempty scheme (a letter followed
by scheme characters), then `"://"`, then a nonempty host (ended by `/`, `?`,
`#` or `:`). -/
def urlParseOk (s : Str) : Bool :=
  let scheme := s.takeWhile (fun c => !(c == ':'))
  match s.dropWhile (fun c => !(c == ':')) with
  | ':' :: '/' :: '/' :: r =>
    (match scheme with
     | [] => false
     | c :: cs => c.isAlpha && cs.all isSchemeChar) &&
    !(r.takeWhile (fun c => !(c == '/') && !(c == '?') && !(c == '#') && !(c == ':'))).isEmpty
  | _ => false

/-- `parse_url`: parse the string as a URL; on success return the original
string unchanged, on failure propagate the error (modelled as carrying the
offending string). -/
def parse_url (s : Str) : Except Str Str :=
  if urlParseOk s then .ok s else .error s

example : (parse_url (str "http://abc.xyz")).isOk = true := by decide
example : (parse_url (str "abc")).isOk = false := by decide
example : (parse_url (str "http://httpbin.org/post")).isOk = true := by decide

/-! ## POST body construction (`post`) -/

/-- `HashMap::insert` on an association list with unique keys: if the key is
already present, replace its value in place; otherwise append the new entry.
(`std::collections::HashMap` has no meaningful order; only key uniqueness and
the key-to-value mapping are observable through serialization.) -/
def insertKV : List (Str × Str) → Str → Str → List (Str × Str)
  | [], k, v => [(k, v)]
  | (k₀, v₀) :: rest, k, v =>
    if k₀ = k then (k₀, v) :: rest else (k₀, v₀) :: insertKV rest k v

/-- The body-building loop of `post`: fold the parsed `KvPair`s into the
`HashMap`, in command-line order, so a later pair overwrites an earlier pair
with the same key. -/
def buildBody (pairs : List KvPair) : List (Str × Str) :=
  pairs.foldl (fun m p => insertKV m p.k p.v) []

/-- How many entries of the mapping carry the key `k`. -/
def countKey : List (Str × Str) → Str → Nat
  | [], _ => 0
  | (k₀, _) :: rest, k => (if k₀ = k then 1 else 0) + countKey rest k

/-- Value associated to `k` by the mapping (first entry with key `k`). -/
def lookupKV : List (Str × Str) → Str → Option Str
  | [], _ => none
  | (k₀, v₀) :: rest, k => if k₀ = k then some v₀ else lookupKV rest k

/-- The body pairs whose key is `k`, in command-line order. -/
def pairsWithKey (pairs : List KvPair) (k : Str) : List KvPair :=
  pairs.filter (fun p => decide (p.k = k))

/-- Written from the spec's words, for comparison with the code: "the value of
the last pair with that key". -/
def lastValSpec (pairs : List KvPair) (k : Str) : Option Str :=
  (pairsWithKey pairs k).getLast?.map KvPair.v

/-- Modelled from the spec: JSON string escaping of the external `serde_json`
serialization capability (escapes the quote and backslash; the body tokens in
the claims contain neither). -/
def jsonEscape : Str → Str
  | [] => []
  | c :: cs =>
    if c = '"' || c = '\\' then '\\' :: c :: jsonEscape cs else c :: jsonEscape cs

/-- A JSON string literal for `s`. -/
def jsonStr (s : Str) : Str := '"' :: (jsonEscape s ++ ['"'])

/-- Comma-separated concatenation. -/
def joinComma : List Str → Str
  | [] => []
  | [x] => x
  | x :: xs => x ++ ',' :: joinComma xs

/-- Modelled from the spec: the external `serde_json` capability serializing
the string-to-string mapping as a JSON object (`{"k":"v",...}`; the empty
mapping serializes to `{}`). -/
def serializeObj (m : List (Str × Str)) : Str :=
  '{' :: (joinComma (m.map fun p => jsonStr p.1 ++ ':' :: jsonStr p.2) ++ ['}'])

/-- The HTTP POST request built by `post`: `client.post(url).json(&body)`.
The `json` convenience serializes the mapping and sets the
`Content-Type: application/json` header. -/
structure PostRequest where
  url : Str
  contentType : Str
  body : Str
deriving DecidableEq, Repr

/-- `post` (request construction): build the `HashMap` from the parsed body
pairs and serialize it as the JSON body of a POST to `url`. -/
def post (url : Str) (body : List KvPair) : PostRequest :=
  { url := url
    contentType := str "application/json"
    body := serializeObj (buildBody body) }

example : (post (str "http://x") []).body = str "{}" := by decide
example : (post (str "http://x") [⟨str "a", str "1"⟩, ⟨str "a", str "2"⟩]).body
    = str "\x7b\"a\":\"2\"\x7d" := by decide

/-! ## MIME types (`mime::Mime` and `mime::APPLICATION_JSON`) -/

/-- A parsed MIME type: type, subtype, and the parameter list. Equality is
structural, exactly as the `mime` crate's `Mime` equality compares the whole
normalized source, parameters included. -/
structure Mime where
  type_ : Str
  subtype : Str
  params : List (Str × Str)
deriving DecidableEq, Repr

/-- `mime::APPLICATION_JSON`: `application/json` with no parameters. -/
def APPLICATION_JSON : Mime :=
  { type_ := str "application", subtype := str "json", params := [] }

/-- Characters a MIME token (type, subtype, parameter name) may contain. -/
def isTsChar (c : Char) : Bool :=
  c.isAlphanum || c == '-' || c == '+' || c == '.' || c == '_' || c == '*'

/-- Strip spaces from both ends. -/
def trimSpaces (s : Str) : Str :=
  ((s.dropWhile (fun c => c == ' ')).reverse.dropWhile (fun c => c == ' ')).reverse

/-- Lowercase every character (the `mime` crate compares case-insensitively;
we normalize at parse time instead). -/
def lowerStr (s : Str) : Str := s.map Char.toLower

/-- One `key=value` MIME parameter; fails on anything malformed. -/
def parseParam (s : Str) : Option (Str × Str) :=
  match splitChar '=' (trimSpaces s) with
  | [k, v] =>
    if !k.isEmpty && k.all isTsChar && !v.isEmpty then
      some (lowerStr k, v)
    else none
  | _ => none

/-- Modelled from the spec: the external `mime` crate's `Mime::from_str`
(not part of this repository), as an explicit fallible parser: a
`type/subtype` pair of nonempty tokens, followed by `;`-separated
`key=value` parameters; anything else (for example a value with no `/`)
fails to parse. -/
def mimeParse (s : Str) : Option Mime :=
  match splitChar ';' s with
  | [] => none
  | main :: ps =>
    let m := trimSpaces main
    let ty := m.takeWhile (fun c => !(c == '/'))
    match m.dropWhile (fun c => !(c == '/')) with
    | '/' :: sub =>
      if !ty.isEmpty && ty.all isTsChar && !sub.isEmpty && sub.all isTsChar then
        match ps.mapM parseParam with
        | some params => some ⟨lowerStr ty, lowerStr sub, params⟩
        | none => none
      else none
    | _ => none

example : mimeParse (str "application/json") = some APPLICATION_JSON := by decide
example : mimeParse (str "application/json; charset=utf-8")
    = some ⟨str "application", str "json", [(str "charset", str "utf-8")]⟩ := by decide
example : mimeParse (str "xyz") = none := by decide

/-! ## Response rendering (`print_status`, `print_headers`, `get_content_type`,
`print_body`, `print_resp`) -/

/-- A `reqwest::Response` as the renderer observes it: protocol version,
status, the header list in transport order (names normalized to lowercase by
the transport), and the result of awaiting `resp.text()` — body retrieval is a
separate awaited operation that can fail after the response headers arrived. -/
structure HttpResponse where
  version : Str
  status : Str
  headers : List (Str × Str)
  textResult : Except Str Str
deriving DecidableEq, Repr

/-- `header::CONTENT_TYPE` (header names are matched lowercased). -/
def CONTENT_TYPE : Str := str "content-type"

/-- `HeaderMap::get`: the first header value carrying the name. -/
def headerGet (headers : List (Str × Str)) (name : Str) : Option Str :=
  match headers with
  | [] => none
  | (n, v) :: rest => if n = name then some v else headerGet rest name

/-- `print_status`: the one line `println!("{:?} {}", version, status)` prints
(with its explicit trailing `\n`; the `.blue()` colouring is identity here). -/
def print_status_line (r : HttpResponse) : Str :=
  r.version ++ ' ' :: r.status ++ ['\n']

/-- `print_headers`: one `name: value` line per header in order, then the
blank `println!("\n")` line. -/
def print_headers_lines (r : HttpResponse) : List Str :=
  r.headers.map (fun p => p.1 ++ str ": " ++ p.2) ++ [['\n']]

/-- `get_content_type`: absent header gives `None`; a present header is parsed
with `.parse().unwrap()`, so an unparsable value panics (modelled as
`.error`). -/
def get_content_type (r : HttpResponse) : Except Str (Option Mime) :=
  match headerGet r.headers CONTENT_TYPE with
  | none => .ok none
  | some v =>
    match mimeParse v with
    | some m => .ok (some m)
    | none => .error (str "panic: invalid mime type")

/-- `print_body`: on `Some(v)` with `v == mime::APPLICATION_JSON`, print
`jsonxf::pretty_print(body).unwrap()` (the pretty-printer `pp` is the external
`jsonxf` capability, passed explicitly; its failure is unwrapped, i.e. a
panic); on any other `Some` and on `None`, print the body unchanged. The
printed line is returned; `.error` is a panic. -/
def print_body (pp : Str → Except Str Str) (m : Option Mime) (body : Str) :
    Except Str Str :=
  match m with
  | some v =>
    if v = APPLICATION_JSON then
      match pp body with
      | .ok s => .ok s
      | .error _ => .error (str "panic: pretty_print failed")
    else .ok body
  | none => .ok body

/-- `print_resp`: print the status line, then the headers, then resolve the
content type (which can panic), then await the body text (which can fail),
then print the body. Returns the list of printed chunks in order together
with the outcome; on a failure or panic, the chunks already printed remain
printed. -/
def print_resp (pp : Str → Except Str Str) (r : HttpResponse) :
    List Str × Except Str Unit :=
  let out := print_status_line r :: print_headers_lines r
  match get_content_type r with
  | .error e => (out, .error e)
  | .ok m =>
    match r.textResult with
    | .error e => (out, .error e)
    | .ok body =>
      match print_body pp m body with
      | .ok line => (out ++ [line], .ok ())
      | .error e => (out, .error e)

/-! ## CLI options and `main` -/

/-- The `Subcommand` enum with its `Get` / `Post` argument structs. -/
inductive SubcommandArgs where
  | get (url : Str)
  | post (url : Str) (body : List KvPair)
deriving DecidableEq

/-- The `Opts` struct: the parsed command line. -/
structure Opts where
  subcmd : SubcommandArgs
deriving DecidableEq

/-- Rust `{:?}` debug formatting of a `KvPair` (string escapes elided: the
dump only matters up to its `Opts: ` prefix). -/
def debugKvPair (p : KvPair) : Str :=
  str "KvPair \x7b k: " ++ jsonStr p.k ++ str ", v: " ++ jsonStr p.v ++ str " \x7d"

/-- Rust `{:?}` debug formatting of `Opts` as derived in `main.rs`. -/
def debugOpts (o : Opts) : Str :=
  str "Opts \x7b subcmd: " ++
    (match o.subcmd with
     | .get url => str "Get(Get \x7b url: " ++ jsonStr url ++ str " \x7d)"
     | .post url body =>
        str "Post(Post \x7b url: " ++ jsonStr url ++ str ", body: [" ++
          joinComma (body.map debugKvPair) ++ str "] \x7d)") ++
    str " \x7d"

/-- The `println!("Opts: {:?}", opts)` line at the top of `main`. -/
def optsLine (o : Opts) : Str := str "Opts: " ++ debugOpts o ++ ['\n']

/-- `main` after argument parsing, given the response the transport returned
for the dispatched request: print the `Opts: ` debug line, then render the
response with `print_resp`. The printed chunks are returned in order with the
final outcome. -/
def main_output (pp : Str → Except Str Str) (o : Opts) (r : HttpResponse) :
    List Str × Except Str Unit :=
  let rendered := print_resp pp r
  (optsLine o :: rendered.1, rendered.2)

/-! ## Lemmas about `splitChar` and the KvPair parser -/

theorem splitChar_ne_nil (sep : Char) (l : Str) : splitChar sep l ≠ [] := by
  cases l with
  | nil => simp [splitChar]
  | cons c cs =>
    simp only [splitChar]
    split
    · simp
    · split <;> simp

theorem splitChar_head (sep : Char) (l : Str) :
    (splitChar sep l)[0]? = some (l.takeWhile (fun c => !(c == sep))) := by
  induction l with
  | nil => simp [splitChar]
  | cons c cs ih =>
    by_cases h : c = sep
    · subst h
      simp [splitChar, List.takeWhile_cons]
    · have hb : (c == sep) = false := by simp [h]
      simp only [splitChar, if_neg h]
      cases hs : splitChar sep cs with
      | nil => exact absurd hs (splitChar_ne_nil sep cs)
      | cons f rest =>
        rw [hs] at ih
        simp only [List.getElem?_cons_zero, Option.some.injEq] at ih
        simp [List.takeWhile_cons, hb, ih]

theorem splitChar_append (sep : Char) (a r : Str) (ha : sep ∉ a) :
    splitChar sep (a ++ sep :: r) = a :: splitChar sep r := by
  induction a with
  | nil => simp [splitChar]
  | cons c a2 ih =>
    have hc : c ≠ sep := by
      intro h
      exact ha (h ▸ List.mem_cons_self c a2)
    have ha2 : sep ∉ a2 := fun h => ha (List.mem_cons_of_mem _ h)
    simp only [List.cons_append, splitChar, if_neg hc, List.append_eq]
    rw [ih ha2]

theorem splitChar_not_mem (sep : Char) (s : Str) (h : sep ∉ s) :
    splitChar sep s = [s] := by
  induction s with
  | nil => rfl
  | cons c cs ih =>
    have hc : c ≠ sep := by
      intro hcc
      exact h (hcc ▸ List.mem_cons_self c cs)
    have hcs : sep ∉ cs := fun hm => h (List.mem_cons_of_mem _ hm)
    simp only [splitChar, if_neg hc]
    rw [ih hcs]

theorem mem_split (sep : Char) (s : Str) (h : sep ∈ s) :
    ∃ a r, s = a ++ sep :: r ∧ sep ∉ a := by
  induction s with
  | nil => cases h
  | cons c cs ih =>
    by_cases hc : c = sep
    · exact ⟨[], cs, by simp [hc], by simp⟩
    · have hm : sep ∈ cs := by
        cases List.mem_cons.mp h with
        | inl he => exact absurd he.symm hc
        | inr hm => exact hm
      obtain ⟨a, r, heq, hna⟩ := ih hm
      refine ⟨c :: a, r, by simp [heq], ?_⟩
      intro hmem
      cases List.mem_cons.mp hmem with
      | inl he => exact hc he.symm
      | inr hm2 => exact hna hm2

theorem from_str_split (a r : Str) (ha : '=' ∉ a) :
    KvPair.from_str (a ++ '=' :: r) =
      .ok ⟨a, r.takeWhile (fun c => !(c == '='))⟩ := by
  have h0 : (splitChar '=' (a ++ '=' :: r))[0]? = some a := by
    rw [splitChar_append '=' a r ha]
    simp
  have h1 : (splitChar '=' (a ++ '=' :: r))[1]? =
      some (r.takeWhile (fun c => !(c == '='))) := by
    rw [splitChar_append '=' a r ha]
    simpa using splitChar_head '=' r
  simp [KvPair.from_str, h0, h1]

theorem from_str_no_sep (s : Str) (h : '=' ∉ s) :
    KvPair.from_str s = .error (str "Failed to parse" ++ s) := by
  have hs : splitChar '=' s = [s] := splitChar_not_mem '=' s h
  simp [KvPair.from_str, hs]

theorem from_str_key (s : Str) (p : KvPair)
    (h : KvPair.from_str s = .ok p) :
    p.k = s.takeWhile (fun c => !(c == '=')) := by
  have h0 := splitChar_head '=' s
  simp only [KvPair.from_str, h0] at h
  cases h1 : (splitChar '=' s)[1]? with
  | none => rw [h1] at h; cases h
  | some v =>
    rw [h1] at h
    cases h
    rfl

/-! ## Lemmas about the POST body mapping -/

theorem countKey_insertKV_ne (m : List (Str × Str)) (k v k2 : Str)
    (h : k2 ≠ k) : countKey (insertKV m k v) k2 = countKey m k2 := by
  induction m with
  | nil => simp [insertKV, countKey, Ne.symm h]
  | cons e rest ih =>
    obtain ⟨k0, v0⟩ := e
    by_cases h0 : k0 = k
    · simp [insertKV, countKey, h0]
    · simp [insertKV, countKey, h0, ih]

theorem countKey_insertKV_self (m : List (Str × Str)) (k v : Str)
    (h : countKey m k ≤ 1) : countKey (insertKV m k v) k = 1 := by
  induction m with
  | nil => simp [insertKV, countKey]
  | cons e rest ih =>
    obtain ⟨k0, v0⟩ := e
    by_cases h0 : k0 = k
    · subst h0
      have hrest : countKey rest k0 = 0 := by
        simp [countKey] at h
        omega
      simp [insertKV, countKey, hrest]
    · simp only [countKey, if_neg h0, Nat.zero_add] at h
      simp [insertKV, countKey, h0, ih h]

theorem countKey_insertKV_le_one (m : List (Str × Str)) (k v k2 : Str)
    (h : ∀ k3, countKey m k3 ≤ 1) : countKey (insertKV m k v) k2 ≤ 1 := by
  by_cases hk : k2 = k
  · subst hk
    rw [countKey_insertKV_self m k2 v (h k2)]
  · rw [countKey_insertKV_ne m k v k2 hk]
    exact h k2

theorem countKey_foldl (ps : List KvPair) (m : List (Str × Str)) (k : Str)
    (hm : ∀ k2, countKey m k2 ≤ 1) :
    countKey (ps.foldl (fun m2 p => insertKV m2 p.k p.v) m) k =
      if pairsWithKey ps k = [] then countKey m k else 1 := by
  induction ps generalizing m with
  | nil => simp [pairsWithKey]
  | cons p rest ih =>
    have hm2 : ∀ k2, countKey (insertKV m p.k p.v) k2 ≤ 1 :=
      fun k2 => countKey_insertKV_le_one m p.k p.v k2 hm
    simp only [List.foldl_cons]
    rw [ih (insertKV m p.k p.v) hm2]
    by_cases hp : p.k = k
    · by_cases hrest : pairsWithKey rest k = []
      · have hcons : pairsWithKey (p :: rest) k ≠ [] := by
          simp [pairsWithKey, List.filter_cons, hp]
        rw [if_pos hrest, if_neg hcons, ← hp]
        exact countKey_insertKV_self m p.k p.v (hm p.k)
      · have hcons : pairsWithKey (p :: rest) k ≠ [] := by
          simp [pairsWithKey, List.filter_cons, hp]
        rw [if_neg hrest, if_neg hcons]
    · have hsame : pairsWithKey (p :: rest) k = pairsWithKey rest k := by
        simp [pairsWithKey, List.filter_cons, hp]
      rw [hsame, countKey_insertKV_ne m p.k p.v k (Ne.symm hp)]

theorem lookupKV_insertKV (m : List (Str × Str)) (k v k2 : Str) :
    lookupKV (insertKV m k v) k2 = if k2 = k then some v else lookupKV m k2 := by
  induction m with
  | nil =>
    by_cases h : k2 = k
    · simp [insertKV, lookupKV, h]
    · simp [insertKV, lookupKV, h, Ne.symm h]
  | cons e rest ih =>
    obtain ⟨k0, v0⟩ := e
    by_cases h0 : k0 = k
    · subst h0
      by_cases h2 : k2 = k0
      · simp [insertKV, lookupKV, h2]
      · simp [insertKV, lookupKV, h2, Ne.symm h2]
    · by_cases h2 : k2 = k
      · subst h2
        have : k0 ≠ k2 := h0
        simp [insertKV, lookupKV, h0, this, ih]
      · by_cases h3 : k0 = k2
        · simp [insertKV, lookupKV, h0, h3, h2]
        · simp [insertKV, lookupKV, h0, h3, h2, ih]

theorem lookupKV_foldl (ps : List KvPair) (m : List (Str × Str)) (k : Str) :
    lookupKV (ps.foldl (fun m2 p => insertKV m2 p.k p.v) m) k =
      match lastValSpec ps k with
      | some v => some v
      | none => lookupKV m k := by
  induction ps generalizing m with
  | nil => simp [lastValSpec, pairsWithKey]
  | cons p rest ih =>
    simp only [List.foldl_cons]
    rw [ih (insertKV m p.k p.v)]
    by_cases hp : p.k = k
    · have hf : pairsWithKey (p :: rest) k = p :: pairsWithKey rest k := by
        simp [pairsWithKey, List.filter_cons, hp]
      by_cases hrest : pairsWithKey rest k = []
      · have h1 : lastValSpec rest k = none := by
          simp [lastValSpec, hrest]
        have h2 : lastValSpec (p :: rest) k = some p.v := by
          rw [lastValSpec, hf, hrest]
          rfl
        rw [h1, h2]
        show lookupKV (insertKV m p.k p.v) k = some p.v
        simp [lookupKV_insertKV, hp]
      · obtain ⟨q, l2, hql⟩ := List.exists_cons_of_ne_nil hrest
        have h2 : lastValSpec (p :: rest) k = lastValSpec rest k := by
          rw [lastValSpec, hf, hql, List.getLast?_cons_cons, lastValSpec, hql]
        have h3 : (lastValSpec rest k).isSome = true := by
          simp [lastValSpec, hql]
        obtain ⟨v0, hv0⟩ := Option.isSome_iff_exists.mp h3
        rw [h2, hv0]
    · have h2 : lastValSpec (p :: rest) k = lastValSpec rest k := by
        simp [lastValSpec, pairsWithKey, List.filter_cons, hp]
      rw [h2]
      cases h4 : lastValSpec rest k with
      | some v => rfl
      | none =>
        show lookupKV (insertKV m p.k p.v) k = lookupKV m k
        rw [lookupKV_insertKV, if_neg (Ne.symm hp)]

/-! ## Claim theorems -/

/-- C1: the claim states that for a token with at least one `=`, the value is
the entire substring after the first `=`. Counterexample: `"a=b=c"` parses,
but its value is `"b"`, not `"b=c"` — `split('=')` takes the second fragment
only, dropping everything from the second `=` on. -/
theorem C1_counterexample :
    ('=' ∈ str "a=b=c") ∧
    KvPair.from_str (str "a=b=c") = .ok ⟨str "a", str "b"⟩ ∧
    str "b" ≠ str "b=c" := by decide

/-- C1 (amended): for every token containing at least one `=`, the parser
succeeds; the key is the substring before the first `=`, and the value is the
substring strictly between the first `=` and the following `=` (characters
from the second `=` on are dropped). -/
theorem C1_first_split :
    (∀ s : Str, '=' ∈ s → (KvPair.from_str s).isOk = true) ∧
    (∀ a r : Str, '=' ∉ a →
      KvPair.from_str (a ++ '=' :: r) =
        .ok ⟨a, r.takeWhile (fun c => !(c == '='))⟩) := by
  constructor
  · intro s hs
    obtain ⟨a, r, rfl, ha⟩ := mem_split '=' s hs
    rw [from_str_split a r ha]
    rfl
  · intro a r ha
    exact from_str_split a r ha

/-- C1 witness: the amended statement evaluated on `"x=1=2"`. -/
theorem C1_witness :
    (KvPair.from_str (str "x=1=2")).isOk = true ∧
    KvPair.from_str (str "x" ++ '=' :: str "1=2") =
      .ok ⟨str "x", (str "1=2").takeWhile (fun c => !(c == '='))⟩ :=
  ⟨C1_first_split.1 (str "x=1=2") (by decide),
   C1_first_split.2 (str "x") (str "1=2") (by decide)⟩

/-- C4: the claim states that a successfully constructed KvPair has a
non-empty key, so a token beginning with `=` cannot yield a valid KvPair.
Counterexample: `"=x"` parses successfully into the pair with the empty key
`[]` and value `"x"`. -/
theorem C4_counterexample :
    KvPair.from_str (str "=x") = .ok ⟨[], str "x"⟩ := by decide

/-- C4 (amended): the key of every successfully constructed KvPair is the
(possibly empty) prefix of the token before the first `=` and never contains
`=`; the value may be the empty string. -/
theorem C4_key_invariant (s : Str) (p : KvPair)
    (h : KvPair.from_str s = .ok p) :
    '=' ∉ p.k ∧ p.k = s.takeWhile (fun c => !(c == '=')) := by
  have hk := from_str_key s p h
  refine ⟨?_, hk⟩
  rw [hk]
  intro hmem
  have := List.mem_takeWhile_imp hmem
  simp at this

/-- C4 witness: the amended statement evaluated on `"a=1"`. -/
theorem C4_witness :
    '=' ∉ (⟨str "a", str "1"⟩ : KvPair).k ∧
    (⟨str "a", str "1"⟩ : KvPair).k =
      (str "a=1").takeWhile (fun c => !(c == '=')) :=
  C4_key_invariant (str "a=1") ⟨str "a", str "1"⟩ (by decide)

/-- C8: for every token containing no `=` (including the empty token), the
KvPair parser fails with the missing-separator error (the code's
`anyhow!("Failed to parse{}", s)`). -/
theorem C8_missing_separator (s : Str) (h : '=' ∉ s) :
    KvPair.from_str s = .error (str "Failed to parse" ++ s) :=
  from_str_no_sep s h

/-- C8 witness: evaluated on the empty token and on `"abc"`. -/
theorem C8_witness :
    KvPair.from_str [] = .error (str "Failed to parse" ++ []) ∧
    KvPair.from_str (str "abc") = .error (str "Failed to parse" ++ str "abc") :=
  ⟨C8_missing_separator [] (by decide),
   C8_missing_separator (str "abc") (by decide)⟩

/-- C6: if the POST body contains two or more KvPairs with the same key, the
transmitted mapping contains that key exactly once, bound to the value of the
last pair with that key. -/
theorem C6_last_write_wins (ps : List KvPair) (k : Str)
    (h : 2 ≤ (pairsWithKey ps k).length) :
    countKey (buildBody ps) k = 1 ∧
    lookupKV (buildBody ps) k = lastValSpec ps k := by
  have hne : pairsWithKey ps k ≠ [] := by
    intro he
    rw [he] at h
    simp at h
  constructor
  · have hc := countKey_foldl ps [] k (fun k2 => by simp [countKey])
    rw [buildBody, hc, if_neg hne]
  · have hl := lookupKV_foldl ps [] k
    rw [buildBody, hl]
    have h3 : (lastValSpec ps k).isSome = true := by
      simp [lastValSpec, hne]
    obtain ⟨v0, hv0⟩ := Option.isSome_iff_exists.mp h3
    rw [hv0]

/-- C6 witness: the body `[{a,1},{a,2}]` maps `a` once, to `"2"`. -/
theorem C6_witness :
    countKey (buildBody [⟨str "a", str "1"⟩, ⟨str "a", str "2"⟩]) (str "a") = 1 ∧
    lookupKV (buildBody [⟨str "a", str "1"⟩, ⟨str "a", str "2"⟩]) (str "a") =
      lastValSpec [⟨str "a", str "1"⟩, ⟨str "a", str "2"⟩] (str "a") :=
  C6_last_write_wins [⟨str "a", str "1"⟩, ⟨str "a", str "2"⟩] (str "a")
    (by decide)

/-- C7: the URL validator accepts exactly the strings parseable as an absolute
URL with a scheme and a host (`urlParseOk`, modelled from the spec's interface
description of the external `url` crate); `"http://abc.xyz"` and
`"http://httpbin.org/post"` are accepted, the bare name `"abc"` is rejected,
and scheme-bearing strings without a host (`"http://"`, `"mailto:foo"`) are
rejected. -/
theorem C7_url_validation :
    (∀ s : Str, (parse_url s).isOk = urlParseOk s) ∧
    (parse_url (str "http://abc.xyz")).isOk = true ∧
    (parse_url (str "abc")).isOk = false ∧
    (parse_url (str "http://httpbin.org/post")).isOk = true ∧
    (parse_url (str "http://")).isOk = false ∧
    (parse_url (str "mailto:foo")).isOk = false := by
  refine ⟨fun s => ?_, by decide, by decide, by decide, by decide, by decide⟩
  by_cases h : urlParseOk s <;> simp [parse_url, h, Except.isOk, Except.toBool]

/-- C9: a Post command with an empty body list still sends a POST whose body
is the empty JSON object `{}` with the `application/json` content type. -/
theorem C9_empty_body (url : Str) :
    post url [] =
      { url := url, contentType := str "application/json", body := str "{}" } :=
  rfl

/-- The identity stand-in for the external pretty-printing capability, used to
evaluate the renderer on concrete responses. -/
def ppId : Str → Except Str Str := fun s => .ok s

/-- A concrete response whose `Content-Type` header is present but not
parseable as a MIME type (`"xyz"` has no `/`). -/
def respBadCT : HttpResponse :=
  { version := str "HTTP/1.1", status := str "200 OK"
    headers := [(CONTENT_TYPE, str "xyz")]
    textResult := .ok (str "hello") }

/-- A concrete response with no `Content-Type` header. -/
def respNoCT : HttpResponse :=
  { version := str "HTTP/1.1", status := str "200 OK"
    headers := [(str "server", str "httpbin")]
    textResult := .ok (str "hello") }

/-- C2: the claim says a present-but-unparsable `Content-Type` degrades to
raw-text rendering without crashing. The code instead panics:
`get_content_type` calls `.parse().unwrap()` on the header value, so rendering
`respBadCT` aborts. The claim's second half does hold: with no `Content-Type`
header the body is rendered raw and the run succeeds. -/
theorem C2_malformed_content_type_panics :
    get_content_type respBadCT = .error (str "panic: invalid mime type") ∧
    (print_resp ppId respBadCT).2 = .error (str "panic: invalid mime type") ∧
    (print_resp ppId respNoCT).2 = .ok () ∧
    (print_resp ppId respNoCT).1.getLast? = some (str "hello") := by decide

/-- A tagging stand-in for the pretty-printing capability, whose output is
distinguishable from the raw body. -/
def ppTag : Str → Except Str Str := fun s => .ok ('P' :: s)

/-- The parsed MIME type `application/json; charset=utf-8`. -/
def jsonUtf8 : Mime :=
  { type_ := str "application", subtype := str "json"
    params := [(str "charset", str "utf-8")] }

/-- C3 counterexample: a response with content type
`application/json; charset=utf-8` resolves to an `application/json` MIME type
with a charset parameter, but `print_body` renders the body raw, not
pretty-printed: the code's `v == mime::APPLICATION_JSON` comparison does not
ignore parameters. -/
theorem C3_counterexample :
    mimeParse (str "application/json; charset=utf-8") = some jsonUtf8 ∧
    jsonUtf8.type_ = str "application" ∧
    jsonUtf8.subtype = str "json" ∧
    print_body ppTag (some jsonUtf8) (str "\x7b\"x\":1\x7d") =
      .ok (str "\x7b\"x\":1\x7d") ∧
    ppTag (str "\x7b\"x\":1\x7d") ≠ .ok (str "\x7b\"x\":1\x7d") := by decide

/-- C3 (amended): the renderer pretty-prints exactly when the resolved content
type is `application/json` with no parameters; any MIME type carrying
parameters (such as a charset) renders the body as raw text. -/
theorem C3_json_pretty_printing :
    (∀ (pp : Str → Except Str Str) (body out : Str), pp body = .ok out →
      print_body pp (some APPLICATION_JSON) body = .ok out) ∧
    (∀ (pp : Str → Except Str Str) (m : Mime) (body : Str), m.params ≠ [] →
      print_body pp (some m) body = .ok body) := by
  constructor
  · intro pp body out h
    simp [print_body, h]
  · intro pp m body h
    have hne : m ≠ APPLICATION_JSON := by
      intro he
      rw [he] at h
      exact h rfl
    simp [print_body, hne]

/-- C3 witness: the amended statement evaluated with the tagging
pretty-printer on `application/json` (pretty) and on `jsonUtf8` (raw). -/
theorem C3_witness :
    print_body ppTag (some APPLICATION_JSON) (str "{}") = .ok ('P' :: str "{}") ∧
    print_body ppTag (some jsonUtf8) (str "{}") = .ok (str "{}") :=
  ⟨C3_json_pretty_printing.1 ppTag (str "{}") ('P' :: str "{}") rfl,
   C3_json_pretty_printing.2 ppTag jsonUtf8 (str "{}") (by decide)⟩

/-- A concrete response whose body retrieval (`resp.text().await`) fails after
the response headers arrived. -/
def respTextFails : HttpResponse :=
  { version := str "HTTP/1.1", status := str "200 OK"
    headers := [(str "server", str "httpbin")]
    textResult := .error (str "connection reset") }

/-- C5 counterexample: a body-retrieval failure after dispatch does not leave
the output empty — the status line and headers were already printed when
`print_resp` fails. -/
theorem C5_counterexample :
    (print_resp ppId respTextFails).2 = .error (str "connection reset") ∧
    (print_resp ppId respTextFails).1 ≠ [] := by decide

/-- C5 (amended): failures before dispatch produce no rendered output, but a
body-retrieval failure after dispatch is a partial-render state: exactly the
status line and the header block have been written, the body never is, and
the failure propagates. -/
theorem C5_partial_render (pp : Str → Except Str Str) (r : HttpResponse)
    (e : Str) (m : Option Mime)
    (hct : get_content_type r = .ok m) (ht : r.textResult = .error e) :
    (print_resp pp r).1 = print_status_line r :: print_headers_lines r ∧
    (print_resp pp r).2 = .error e := by
  simp [print_resp, hct, ht]

/-- C5 witness: the amended statement evaluated on `respTextFails`. -/
theorem C5_witness :
    (print_resp ppId respTextFails).1 =
      print_status_line respTextFails :: print_headers_lines respTextFails ∧
    (print_resp ppId respTextFails).2 = .error (str "connection reset") :=
  C5_partial_render ppId respTextFails (str "connection reset") none
    (by decide) (by decide)

/-- C10: on every successful run, the `Opts: ` debug dump of the parsed
options is printed before any part of the rendered response, so the rendered
status line is never the first line of output. -/
theorem C10_opts_line_first (pp : Str → Except Str Str) (o : Opts)
    (r : HttpResponse) (_h : (main_output pp o r).2 = .ok ()) :
    (main_output pp o r).1 = optsLine o :: (print_resp pp r).1 ∧
    (main_output pp o r).1.head? = some (optsLine o) ∧
    List.IsPrefix (str "Opts: ") (optsLine o) := by
  refine ⟨rfl, rfl, ⟨debugOpts o ++ ['\n'], ?_⟩⟩
  simp [optsLine]

/-- The parsed options of a concrete successful run. -/
def optsW : Opts := ⟨.get (str "http://abc.xyz")⟩

/-- C10 witness: the statement evaluated on a concrete successful run. -/
theorem C10_witness :
    (main_output ppId optsW respNoCT).1 =
      optsLine optsW :: (print_resp ppId respNoCT).1 ∧
    (main_output ppId optsW respNoCT).1.head? = some (optsLine optsW) ∧
    List.IsPrefix (str "Opts: ") (optsLine optsW) :=
  C10_opts_line_first ppId optsW respNoCT (by decide)

end Httpie
